/-
Verification of the streets repository's ingestion and query core.

The definitions below are a shallow embedding of:
  - src/loadUtils.ts : coerce, rowToDoc, loadExcelRows, loadAndIndex
  - src/load.ts (server) : buildEsQuery, the GET /api/search handler,
    the DELETE /api/streets/:id handler

JavaScript numbers are modelled as exact rationals (ℚ) plus NaN/Infinity
markers; ECMAScript ToNumber on strings is modelled for the decimal and
Infinity literal forms (hexadecimal/octal/binary literals are not modelled;
no claim exercises them), and without float rounding.  Fallible pipeline
stages are modelled with Except; absent values with Option (never null).
-/
import Mathlib

namespace Streets

/-- A raw spreadsheet cell value as seen by `coerce` (TypeScript type
`string | number | boolean | undefined`, plus `null`).  `undefined` is
modelled as `none` in `Option RawValue`; `null` is the `null` constructor. -/
inductive RawValue
  | str (s : String)
  | num (q : ℚ)
  | boolean (b : Bool)
  | null
deriving DecidableEq

/-- A typed document field value produced by `coerce` or taken from the
`defaults` object of mapping.json (a JSON scalar). -/
inductive JsValue
  | str (s : String)
  | num (q : ℚ)
  | boolean (b : Bool)
deriving DecidableEq

/-- Result of ECMAScript ToNumber: NaN, ±Infinity, or a finite number
(modelled as an exact rational). -/
inductive JSNum
  | nan
  | inf (neg : Bool)
  | val (q : ℚ)
deriving DecidableEq

/-- JavaScript `String.prototype.trim()`: strip leading and trailing
whitespace (modelled with `Char.isWhitespace`). -/
def jsTrim (s : String) : String :=
  String.mk (((s.toList.dropWhile Char.isWhitespace).reverse.dropWhile
    Char.isWhitespace).reverse)

/-- JavaScript `String.prototype.toLowerCase()` (character-wise lowering). -/
def jsToLower (s : String) : String :=
  String.mk (s.toList.map Char.toLower)

/-- Numeric value of a list of decimal digit characters. -/
def digitsToNat (ds : List Char) : ℕ :=
  ds.foldl (fun a c => a * 10 + (c.toNat - 48)) 0

/-- Split a character list into its leading run of decimal digits and the rest. -/
def splitDigits (cs : List Char) : List Char × List Char :=
  (cs.takeWhile Char.isDigit, cs.dropWhile Char.isDigit)

/-- Parse an optional ECMAScript ExponentPart (`e`/`E`, optional sign, digits)
that must consume the whole remaining input; `some 0` on empty input. -/
def parseExponent (cs : List Char) : Option ℤ :=
  match cs with
  | [] => some 0
  | c :: r =>
    if c = 'e' ∨ c = 'E' then
      let signed : Bool × List Char :=
        match r with
        | '+' :: t => (false, t)
        | '-' :: t => (true, t)
        | t => (false, t)
      let ds := (splitDigits signed.2).1
      let rest := (splitDigits signed.2).2
      if ds ≠ [] ∧ rest = [] then
        some (if signed.1 then -(digitsToNat ds : ℤ) else (digitsToNat ds : ℤ))
      else none
    else none

/-- Parse an unsigned ECMAScript decimal literal (digits, optional `.` and
fraction digits, optional exponent), consuming the whole input. -/
def parseDecimal (cs : List Char) : Option ℚ :=
  let intDs := (splitDigits cs).1
  let r1 := (splitDigits cs).2
  match r1 with
  | '.' :: t =>
    let fracDs := (splitDigits t).1
    let r2 := (splitDigits t).2
    if intDs = [] ∧ fracDs = [] then none
    else
      (parseExponent r2).map (fun e =>
        ((digitsToNat intDs : ℚ) + (digitsToNat fracDs : ℚ) / (10 : ℚ) ^ fracDs.length) *
          (10 : ℚ) ^ e)
  | _ =>
    if intDs = [] then none
    else (parseExponent r1).map (fun e => (digitsToNat intDs : ℚ) * (10 : ℚ) ^ e)

/-- ECMAScript ToNumber on a string: trim whitespace, empty → 0, optional
sign, then `Infinity` or a decimal literal; anything else → NaN. -/
def jsParseNumber (s : String) : JSNum :=
  let t := (jsTrim s).toList
  match t with
  | [] => JSNum.val 0
  | _ =>
    let signed : Bool × List Char :=
      match t with
      | '+' :: r => (false, r)
      | '-' :: r => (true, r)
      | r => (false, r)
    if signed.2 = "Infinity".toList then JSNum.inf signed.1
    else
      match parseDecimal signed.2 with
      | some q => JSNum.val (if signed.1 then -q else q)
      | none => JSNum.nan

/-- ECMAScript ToNumber (`Number(raw)`) on a raw cell value. -/
def jsNumber : RawValue → JSNum
  | RawValue.null => JSNum.val 0
  | RawValue.boolean b => JSNum.val (if b then 1 else 0)
  | RawValue.num q => JSNum.val q
  | RawValue.str s => jsParseNumber s

/-- Decimal digits of the fractional part n/d (with n < d), up to the given
fuel; a finite-precision model of JavaScript number printing (every claim
only exercises integer-valued numbers, where this plays no role). -/
def fracDigitsAux (d : ℕ) : ℕ → ℕ → List Char
  | 0, _ => []
  | fuel + 1, n =>
    if n = 0 then []
    else Char.ofNat (48 + n * 10 / d) :: fracDigitsAux d fuel (n * 10 % d)

/-- ECMAScript ToString on a finite number, rendered in decimal. -/
def numToString (q : ℚ) : String :=
  let sign := if q < 0 then "-" else ""
  let n := q.num.natAbs
  let d := q.den
  if n % d = 0 then sign ++ toString (n / d)
  else sign ++ toString (n / d) ++ "." ++ String.mk (fracDigitsAux d 40 (n % d))

/-- ECMAScript ToString (`String(raw)`) on a raw cell value. -/
def jsToString : RawValue → String
  | RawValue.str s => s
  | RawValue.num q => numToString q
  | RawValue.boolean b => if b then "true" else "false"
  | RawValue.null => "null"

/-- Embedding of `coerce(raw, type)` from src/loadUtils.ts: converts a raw
cell value to the declared type, or `none` ("absent") for undefined/null
input, non-integral numeric values, and blank strings. -/
def coerce (raw : Option RawValue) (type : String) : Option JsValue :=
  match raw with
  | none => none
  | some RawValue.null => none
  | some r =>
    if type = "integer" ∨ type = "long" then
      match jsNumber r with
      | JSNum.val q => if q.den = 1 then some (JsValue.num q) else none
      | _ => none
    else if type = "boolean" then
      match r with
      | RawValue.boolean b => some (JsValue.boolean b)
      | _ =>
        let s := jsToLower (jsToString r)
        some (JsValue.boolean (s = "true" ∨ s = "1" ∨ s = "yes"))
    else
      let str := jsTrim (jsToString r)
      if str = "" then none else some (JsValue.str str)

/-- One spreadsheet data row: cells by column index, `none` = absent cell
(JavaScript `undefined`, also for indexes beyond the row's length). -/
abbrev Row : Type := List (Option RawValue)

/-- A document under construction: a JavaScript object modelled as an
insertion-ordered association list with unique keys. -/
abbrev Doc : Type := List (String × JsValue)

/-- `doc[k] !== undefined` on the object model. -/
def objHas (doc : Doc) (k : String) : Bool :=
  doc.any (fun p => p.1 = k)

/-- `doc[k] = v` on the object model: overwrite in place if the key exists,
otherwise append. -/
def objSet (doc : Doc) (k : String) (v : JsValue) : Doc :=
  if objHas doc k then doc.map (fun p => if p.1 = k then (k, v) else p)
  else doc ++ [(k, v)]

/-- Declared type of a field, from the `fieldTypes` record; a field missing
from the record behaves like the default `text` branch of `coerce` (in the
source an `undefined` type matches none of the typed branches). -/
def typeOf (fieldTypes : List (String × String)) (name : String) : String :=
  ((fieldTypes.find? (fun p => p.1 = name)).map Prod.snd).getD "text"

/-- The `fieldNames.forEach((name, i) => ...)` loop of `rowToDoc`: coerce the
cell at each field's index and set the document key when a value is present. -/
def applyFields (row : Row) (fieldTypes : List (String × String)) :
    List String → ℕ → Doc → Doc
  | [], _, doc => doc
  | name :: rest, i, doc =>
    let doc' :=
      match coerce (row.getD i none) (typeOf fieldTypes name) with
      | some v => objSet doc name v
      | none => doc
    applyFields row fieldTypes rest (i + 1) doc'

/-- Embedding of `rowToDoc(row, fieldNames, fieldTypes, defaults)` from
src/loadUtils.ts: build the document positionally, apply defaults for keys
still missing, and return `none` when the document ends up empty. -/
def rowToDoc (row : Row) (fieldNames : List String)
    (fieldTypes : List (String × String)) (defaults : List (String × JsValue)) :
    Option Doc :=
  let doc1 := applyFields row fieldTypes fieldNames 0 []
  let doc2 := defaults.foldl
    (fun doc kv => if objHas doc kv.1 then doc else objSet doc kv.1 kv.2) doc1
  if doc2.length > 0 then some doc2 else none

/-- Schema derived from mapping.json (`buildLoaderConfig` in src/loadUtils.ts):
field names in order, name → declared type, and the loader-only defaults. -/
structure LoaderConfig where
  fieldNames : List String
  fieldTypes : List (String × String)
  defaults : List (String × JsValue)

/-- Loader state during `loadAndIndex`: the pending batch, every document
already written to Elasticsearch via `flushBatch` (batches concatenated, in
order; flushes are assumed to succeed), and the running indexed counter. -/
structure LoadState where
  batch : List Doc
  flushed : List Doc
  indexed : ℕ

/-- One iteration of the row loop in `loadAndIndex` (src/loadUtils.ts): map
the row; if a document is produced, push it onto the batch and flush when the
batch has reached `batchSize`. -/
def loadAndIndexStep (cfg : LoaderConfig) (batchSize : ℕ)
    (st : LoadState) (row : Row) : LoadState :=
  match rowToDoc row cfg.fieldNames cfg.fieldTypes cfg.defaults with
  | none => st
  | some doc =>
    let batch := st.batch ++ [doc]
    if batch.length ≥ batchSize then
      { batch := [], flushed := st.flushed ++ batch, indexed := st.indexed + batch.length }
    else
      { st with batch := batch }

/-- Embedding of `loadAndIndex` (src/loadUtils.ts) over already-extracted
data rows: run the row loop, then flush the remaining partial batch and add
its size to the counter.  Returns the final state rather than just the count
so that the theorems can also speak about what was written. -/
def loadAndIndex (cfg : LoaderConfig) (rows : List Row) (batchSize : ℕ) :
    LoadState :=
  let st := rows.foldl (loadAndIndexStep cfg batchSize) ⟨[], [], 0⟩
  { batch := [], flushed := st.flushed ++ st.batch, indexed := st.indexed + st.batch.length }

/-- Embedding of `loadExcelRows` (src/loadUtils.ts), starting from the rows
the xlsx reader extracted from the first sheet (file-missing and no-sheet
failures are earlier I/O errors with the same fatal behaviour): fewer than 2
rows in total is the fatal "No data rows in sheet" error, otherwise the
header row is dropped. -/
def loadExcelRows (allRows : List Row) : Except String (List Row) :=
  if allRows.length < 2 then Except.error "No data rows in sheet"
  else Except.ok (allRows.drop 1)

/-- The load pipeline from sheet rows to final loader state: `loadExcelRows`
then `loadAndIndex`.  An `Except.error` result carries no `LoadState`, so no
write is modelled as having happened. -/
def loadPipeline (cfg : LoaderConfig) (allRows : List Row) (batchSize : ℕ) :
    Except String LoadState :=
  (loadExcelRows allRows).map (fun rows => loadAndIndex cfg rows batchSize)

/-- The three recognized search modes (`type Mode` in src/load.ts). -/
inductive Mode
  | free
  | any
  | phrase
deriving DecidableEq

/-- A leaf Elasticsearch query clause as built by the server: a `match`
query (with its optional `operator`), a `match_phrase` query, or a `term`
query on a boolean field. -/
inductive EsClause
  | matchQ (field : String) (query : String) (operator : Option String)
  | matchPhrase (field : String) (query : String)
  | termB (field : String) (value : Bool)
deriving DecidableEq

/-- The `bool` query shape `buildEsQuery` constructs: a `must` list and a
`filter` list of leaf clauses, combined by logical AND. -/
structure EsQuery where
  must : List EsClause
  filter : List EsClause
deriving DecidableEq

/-- An indexed street document as seen by query evaluation: its text-field
contents (empty string for an unset field) and its `isDeleted` flag. -/
structure EsDoc where
  text : String → String
  isDeleted : Bool

/-- Split a character list into maximal whitespace-free words (`acc` holds
the characters of the current word, reversed). -/
def wordsAux : List Char → List Char → List (List Char)
  | [], acc => if acc = [] then [] else [acc.reverse]
  | c :: rest, acc =>
    if c.isWhitespace then
      if acc = [] then wordsAux rest [] else acc.reverse :: wordsAux rest []
    else wordsAux rest (c :: acc)

/-- Whitespace tokenization, modelling the analysis step of Elasticsearch
full-text matching. -/
def esTokens (s : String) : List String :=
  (wordsAux s.toList []).map String.mk

/-- Model of Elasticsearch leaf-clause evaluation: a `match` query succeeds
when at least one query word occurs in the field (OR semantics — the server
only issues `operator: "or"` or the default, which is also OR); a
`match_phrase` query succeeds when the query words occur contiguously and in
order; a `term` query on `isDeleted` compares the document's flag (the only
term query the server builds). -/
def satisfiesClause (doc : EsDoc) : EsClause → Bool
  | EsClause.matchQ f q _ =>
    (esTokens q).any (fun w => (esTokens (doc.text f)).contains w)
  | EsClause.matchPhrase f q =>
    decide (List.IsInfix (esTokens q) (esTokens (doc.text f)))
  | EsClause.termB f v => f = "isDeleted" && doc.isDeleted = v

/-- Model of Elasticsearch `bool` query evaluation: every `must` clause AND
every `filter` clause must hold. -/
def satisfies (doc : EsDoc) (q : EsQuery) : Bool :=
  q.must.all (satisfiesClause doc) && q.filter.all (satisfiesClause doc)

/-- Embedding of `buildEsQuery(q, mode)` from src/load.ts: the mode picks the
single `must` clause, and the `filter` always requires `isDeleted == false`. -/
def buildEsQuery (q : String) (mode : Mode) : EsQuery :=
  let mustQuery : EsClause :=
    match mode with
    | Mode.free => EsClause.matchQ "namePrimary" q none
    | Mode.phrase => EsClause.matchPhrase "allText" q
    | Mode.any => EsClause.matchQ "allText" q (some "or")
  { must := [mustQuery], filter := [EsClause.termB "isDeleted" false] }

/-- The mode dispatch of the GET /api/search handler (src/load.ts line 98):
`["free","any","phrase"].includes(modeRaw) ? modeRaw : "free"`, applied to
the already-trimmed mode string. -/
def parseMode (modeRaw : String) : Mode :=
  if (["free", "any", "phrase"] : List String).contains modeRaw then
    if modeRaw = "any" then Mode.any
    else if modeRaw = "phrase" then Mode.phrase
    else Mode.free
  else Mode.free

/-- Embedding of the GET /api/search handler (src/load.ts): read and trim the
`q` and `mode` parameters (defaults "" and "free"), return an empty hit list
without touching the backend when `q` is blank, otherwise issue the built
query.  The first component records the query sent to the backend (`none` =
no backend call); the constant request parts (index name, `size: 200`, the
six-field `_source` projection) are fixed and not modelled. -/
def searchHandler {α : Type} (qParam modeParam : Option String)
    (backend : EsQuery → List α) : Option EsQuery × List α :=
  let q := jsTrim (qParam.getD "")
  let modeRaw := jsTrim (modeParam.getD "free")
  if q = "" then (none, [])
  else
    let mode := parseMode modeRaw
    let query := buildEsQuery q mode
    (some query, backend query)

/-- Outcome of the DELETE /api/streets/:id handler. -/
inductive DeleteOutcome
  /-- HTTP 400 `{error: "Missing id"}`; no `client.update` call is made and
  no state changes. -/
  | badRequest
  /-- `client.update` issued on this id with `doc: {isDeleted: true}`. -/
  | updated (id : String)
deriving DecidableEq

/-- Embedding of the DELETE /api/streets/:id handler (src/load.ts): trim the
id (default ""), reject blank ids with a 400 before any backend contact,
otherwise issue the soft-delete update. -/
def deleteHandler (idParam : Option String) : DeleteOutcome :=
  let id := jsTrim (idParam.getD "")
  if id = "" then DeleteOutcome.badRequest else DeleteOutcome.updated id

/-! ## Theorems -/

/-- C5: `coerce` is total over its input domain (it is a plain function into
`Option JsValue`, with no error channel): absent (`none`) and `null` raw
values both coerce to absent (`none`, never a null value — `JsValue` has no
null constructor), and every input yields either absent or a typed value. -/
theorem coerce_total_never_null (t : String) (raw : Option RawValue) :
    coerce none t = none ∧ coerce (some RawValue.null) t = none ∧
    (coerce raw t = none ∨ ∃ v : JsValue, coerce raw t = some v) := by
  refine ⟨rfl, rfl, ?_⟩
  cases h : coerce raw t with
  | none => exact Or.inl rfl
  | some v => exact Or.inr ⟨v, rfl⟩

/-- C10: for declared type integer/long, a present empty or whitespace-only
string coerces to the integer 0 and the boolean `true` coerces to 1 (never to
absent), because `Number("") = Number("  ") = 0` and `Number(true) = 1` are
exact integers; consequently an empty-string integer cell populates the
document with 0 instead of being dropped. -/
theorem coerce_blank_integer_is_zero :
    coerce (some (RawValue.str "")) "integer" = some (JsValue.num 0) ∧
    coerce (some (RawValue.str "   ")) "integer" = some (JsValue.num 0) ∧
    coerce (some (RawValue.str "")) "long" = some (JsValue.num 0) ∧
    coerce (some (RawValue.str "   ")) "long" = some (JsValue.num 0) ∧
    coerce (some (RawValue.boolean true)) "integer" = some (JsValue.num 1) ∧
    coerce (some (RawValue.boolean true)) "long" = some (JsValue.num 1) ∧
    rowToDoc [some (RawValue.str "")] ["code"] [("code", "integer")] [] =
      some [("code", JsValue.num 0)] := by
  refine ⟨?_, ?_, ?_, ?_, ?_, ?_, ?_⟩ <;> with_unfolding_all decide

/-- C3 counterexample: a row in which every declared field's cell is absent is
NOT discarded when the defaults map is non-empty — the defaults pass runs
after the field loop and creates keys, so the mapper returns a document
consisting only of default values (here `{isDeleted: false}`). -/
theorem rowToDoc_all_absent_not_discarded :
    rowToDoc [] ["namePrimary"] [("namePrimary", "text")]
        [("isDeleted", JsValue.boolean false)] ≠ none ∧
    rowToDoc [] ["namePrimary"] [("namePrimary", "text")]
        [("isDeleted", JsValue.boolean false)] =
      some [("isDeleted", JsValue.boolean false)] := by
  refine ⟨?_, ?_⟩ <;> with_unfolding_all decide

/-- The field loop of `rowToDoc` leaves the document unchanged when every
cell it would read is absent. -/
theorem applyFields_of_absent (row : Row) (ft : List (String × String)) :
    ∀ (names : List String) (i : ℕ) (doc : Doc),
      (∀ j, j < names.length → row.getD (i + j) none = none) →
      applyFields row ft names i doc = doc := by
  intro names
  induction names with
  | nil => intro i doc _; rfl
  | cons name rest ih =>
    intro i doc h
    have h0 : row.getD i none = none := by simpa using h 0 (by simp)
    have hcoerce : coerce (row.getD i none) (typeOf ft name) = none := by
      rw [h0]; exact rfl
    simp only [applyFields, hcoerce]
    refine ih (i + 1) doc (fun j hj => ?_)
    have hj1 := h (j + 1) (by simp only [List.length_cons]; omega)
    have : i + (j + 1) = i + 1 + j := by omega
    rwa [this] at hj1

/-- C3 (amended): for every source row in which every declared schema field's
cell is absent, and an empty defaults map, the row-to-document mapper returns
no document.  (As stated the claim fails for a non-empty defaults map, see
the counterexample.) -/
theorem rowToDoc_empty_row_discard (row : Row) (fieldNames : List String)
    (fieldTypes : List (String × String))
    (h : ∀ j, j < fieldNames.length → row.getD j none = none) :
    rowToDoc row fieldNames fieldTypes [] = none := by
  simp only [rowToDoc, List.foldl_nil]
  rw [applyFields_of_absent row fieldTypes fieldNames 0 [] (by simpa using h)]
  rfl

/-- Witness for C3's amended theorem at a concrete two-field schema and a
row of two absent cells. -/
theorem rowToDoc_empty_row_discard_witness :
    (∀ j, j < (["a", "b"] : List String).length →
      ([none, none] : Row).getD j none = none) ∧
    rowToDoc [none, none] ["a", "b"] [("a", "integer"), ("b", "text")] [] = none :=
  ⟨by decide,
   rowToDoc_empty_row_discard [none, none] ["a", "b"]
     [("a", "integer"), ("b", "text")] (by decide)⟩

/-- C6: for every present (non-null) raw value coerced with declared type
integer or long, the result is absent unless ECMAScript numeric conversion
yields an exact integer, in which case that integer is returned; in
particular "12.5" and "abc" coerce to absent and "12" to 12. -/
theorem coerce_integer_exact (r : RawValue) (t : String)
    (hr : r ≠ RawValue.null) (ht : t = "integer" ∨ t = "long") :
    ((∃ n : ℤ, jsNumber r = JSNum.val (n : ℚ) ∧
        coerce (some r) t = some (JsValue.num (n : ℚ))) ∨
      ((∀ n : ℤ, jsNumber r ≠ JSNum.val (n : ℚ)) ∧ coerce (some r) t = none)) ∧
    coerce (some (RawValue.str "12.5")) "integer" = none ∧
    coerce (some (RawValue.str "12")) "integer" = some (JsValue.num 12) ∧
    coerce (some (RawValue.str "abc")) "integer" = none := by
  have hc : coerce (some r) t =
      (match jsNumber r with
        | JSNum.val q => if q.den = 1 then some (JsValue.num q) else none
        | _ => none) := by
    cases r with
    | null => exact absurd rfl hr
    | str s => simp only [coerce, if_pos ht]
    | num q => simp only [coerce, if_pos ht]
    | boolean b => simp only [coerce, if_pos ht]
  refine ⟨?_, ?_, ?_, ?_⟩
  · rw [hc]
    cases hjs : jsNumber r with
    | val q =>
      by_cases hq : q.den = 1
      · refine Or.inl ⟨q.num, ?_, ?_⟩
        · rw [Rat.coe_int_num_of_den_eq_one hq]
        · simp only [if_pos hq, Rat.coe_int_num_of_den_eq_one hq]
      · refine Or.inr ⟨?_, by simp only [if_neg hq]⟩
        intro n hn
        have hqn : q = (n : ℚ) := by injection hn
        exact hq (hqn ▸ Rat.den_intCast n)
    | nan => exact Or.inr ⟨fun n hn => by exact JSNum.noConfusion hn, rfl⟩
    | inf b => exact Or.inr ⟨fun n hn => by exact JSNum.noConfusion hn, rfl⟩
  · with_unfolding_all decide
  · with_unfolding_all decide
  · with_unfolding_all decide

/-- Witness for C6 at the concrete cell value "7" with type "integer". -/
theorem coerce_integer_exact_witness :
    (RawValue.str "7" ≠ RawValue.null) ∧
    ("integer" = "integer" ∨ "integer" = "long") ∧
    (((∃ n : ℤ, jsNumber (RawValue.str "7") = JSNum.val (n : ℚ) ∧
        coerce (some (RawValue.str "7")) "integer" = some (JsValue.num (n : ℚ))) ∨
      ((∀ n : ℤ, jsNumber (RawValue.str "7") ≠ JSNum.val (n : ℚ)) ∧
        coerce (some (RawValue.str "7")) "integer" = none)) ∧
      coerce (some (RawValue.str "12.5")) "integer" = none ∧
      coerce (some (RawValue.str "12")) "integer" = some (JsValue.num 12) ∧
      coerce (some (RawValue.str "abc")) "integer" = none) :=
  ⟨by decide, Or.inl rfl,
   coerce_integer_exact (RawValue.str "7") "integer" (by decide) (Or.inl rfl)⟩

/-- Counting invariant of the row loop of `loadAndIndex`: when every row
produces a document, processing the rows adds one to `indexed`-plus-pending
and to `flushed`-plus-pending per row, regardless of when batches flush. -/
theorem loadAndIndex_foldl_counts (cfg : LoaderConfig) (batchSize : ℕ) :
    ∀ (rows : List Row) (st : LoadState),
      (∀ row ∈ rows,
        (rowToDoc row cfg.fieldNames cfg.fieldTypes cfg.defaults).isSome) →
      ((rows.foldl (loadAndIndexStep cfg batchSize) st).indexed +
          (rows.foldl (loadAndIndexStep cfg batchSize) st).batch.length =
        st.indexed + st.batch.length + rows.length ∧
       (rows.foldl (loadAndIndexStep cfg batchSize) st).flushed.length +
          (rows.foldl (loadAndIndexStep cfg batchSize) st).batch.length =
        st.flushed.length + st.batch.length + rows.length) := by
  intro rows
  induction rows with
  | nil => intro st _; simp
  | cons row rest ih =>
    intro st h
    obtain ⟨doc, hdoc⟩ :=
      Option.isSome_iff_exists.mp (h row (List.mem_cons_self row rest))
    have hrest := fun r hr => h r (List.mem_cons_of_mem row hr)
    simp only [List.foldl_cons]
    by_cases hfull : (st.batch ++ [doc]).length ≥ batchSize
    · have hstep : loadAndIndexStep cfg batchSize st row =
          { batch := [], flushed := st.flushed ++ (st.batch ++ [doc]),
            indexed := st.indexed + (st.batch ++ [doc]).length } := by
        simp only [loadAndIndexStep, hdoc, if_pos hfull]
      rw [hstep]
      obtain ⟨h1, h2⟩ := ih _ hrest
      rw [h1, h2]
      simp only [List.length_append, List.length_cons, List.length_nil]
      omega
    · have hstep : loadAndIndexStep cfg batchSize st row =
          { st with batch := st.batch ++ [doc] } := by
        simp only [loadAndIndexStep, hdoc, if_neg hfull]
      rw [hstep]
      obtain ⟨h1, h2⟩ := ih _ hrest
      rw [h1, h2]
      simp only [List.length_append, List.length_cons, List.length_nil]
      omega

/-- C4: with every bulk flush succeeding, loading N rows that each produce a
non-empty document, with batch size ≥ 1, returns an indexed count of exactly
N and writes exactly N documents; and a source with fewer than 2 rows in
total (no data rows beyond the header) fails fatally with
"No data rows in sheet" — an `Except.error` carrying no loader state, i.e.
produced before any write — rather than returning a count of 0. -/
theorem loader_indexes_all_rows (cfg : LoaderConfig) (rows : List Row)
    (batchSize : ℕ) (allRows : List Row)
    (hbs : 1 ≤ batchSize)
    (hdocs : ∀ row ∈ rows,
      (rowToDoc row cfg.fieldNames cfg.fieldTypes cfg.defaults).isSome)
    (hshort : allRows.length < 2) :
    (loadAndIndex cfg rows batchSize).indexed = rows.length ∧
    (loadAndIndex cfg rows batchSize).flushed.length = rows.length ∧
    loadPipeline cfg allRows batchSize = Except.error "No data rows in sheet" := by
  obtain ⟨h1, h2⟩ := loadAndIndex_foldl_counts cfg batchSize rows ⟨[], [], 0⟩ hdocs
  refine ⟨?_, ?_, ?_⟩
  · simp only [loadAndIndex]
    simpa using h1
  · simp only [loadAndIndex]
    simp only [List.length_append]
    simpa using h2
  · simp only [loadPipeline, loadExcelRows, if_pos hshort, Except.map]

/-- Witness for C4: two one-cell text rows, batch size 1, and a one-row
(header-only) sheet. -/
theorem loader_indexes_all_rows_witness :
    (1 ≤ 1) ∧
    (∀ row ∈ ([[some (RawValue.str "x")], [some (RawValue.str "y")]] : List Row),
      (rowToDoc row ["namePrimary"] [("namePrimary", "text")] []).isSome) ∧
    (([[]] : List Row).length < 2) ∧
    ((loadAndIndex ⟨["namePrimary"], [("namePrimary", "text")], []⟩
        [[some (RawValue.str "x")], [some (RawValue.str "y")]] 1).indexed = 2 ∧
     (loadAndIndex ⟨["namePrimary"], [("namePrimary", "text")], []⟩
        [[some (RawValue.str "x")], [some (RawValue.str "y")]] 1).flushed.length = 2 ∧
     loadPipeline ⟨["namePrimary"], [("namePrimary", "text")], []⟩ [[]] 1 =
       Except.error "No data rows in sheet") :=
  ⟨by decide, by decide, by decide,
   loader_indexes_all_rows ⟨["namePrimary"], [("namePrimary", "text")], []⟩
     [[some (RawValue.str "x")], [some (RawValue.str "y")]] 1 [[]]
     (by decide) (by decide) (by decide)⟩

/-- C1: for every non-empty query string and every mode, the built query
carries the unconditional `isDeleted == false` filter clause, the query is
the logical AND of its `must` and `filter` clauses, and no document with
`isDeleted = true` satisfies the built query, however well it matches the
primary clause. -/
theorem deleted_filter_invariance (q : String) (mode : Mode) (hq : q ≠ "") :
    (buildEsQuery q mode).filter = [EsClause.termB "isDeleted" false] ∧
    (∀ doc : EsDoc, satisfies doc (buildEsQuery q mode) =
      ((buildEsQuery q mode).must.all (satisfiesClause doc) &&
        (buildEsQuery q mode).filter.all (satisfiesClause doc))) ∧
    (∀ doc : EsDoc, doc.isDeleted = true →
      satisfies doc (buildEsQuery q mode) = false) := by
  refine ⟨rfl, fun doc => rfl, fun doc hd => ?_⟩
  cases mode <;> simp [satisfies, buildEsQuery, satisfiesClause, hd]

/-- Witness for C1 at query "abc", mode `any`, and a deleted document whose
every field contains the query text. -/
theorem deleted_filter_invariance_witness :
    (("abc" : String) ≠ "") ∧
    ((buildEsQuery "abc" Mode.any).filter = [EsClause.termB "isDeleted" false] ∧
     (∀ doc : EsDoc, satisfies doc (buildEsQuery "abc" Mode.any) =
       ((buildEsQuery "abc" Mode.any).must.all (satisfiesClause doc) &&
         (buildEsQuery "abc" Mode.any).filter.all (satisfiesClause doc))) ∧
     (∀ doc : EsDoc, doc.isDeleted = true →
       satisfies doc (buildEsQuery "abc" Mode.any) = false)) :=
  ⟨by decide, deleted_filter_invariance "abc" Mode.any (by decide)⟩

/-- C2: for every non-empty query string, mode `free` builds a (non-phrase)
match on `namePrimary` only, mode `any` a match on the composite `allText`
field with `operator: "or"`, and mode `phrase` a phrase match on `allText`;
under the evaluation model, the `any` clause holds iff at least one query
word occurs in the field and the `phrase` clause holds iff the query words
occur contiguously in order. -/
theorem mode_primary_clause (q : String) (hq : q ≠ "") :
    buildEsQuery q Mode.free =
      { must := [EsClause.matchQ "namePrimary" q none],
        filter := [EsClause.termB "isDeleted" false] } ∧
    buildEsQuery q Mode.any =
      { must := [EsClause.matchQ "allText" q (some "or")],
        filter := [EsClause.termB "isDeleted" false] } ∧
    buildEsQuery q Mode.phrase =
      { must := [EsClause.matchPhrase "allText" q],
        filter := [EsClause.termB "isDeleted" false] } ∧
    (∀ doc : EsDoc, satisfiesClause doc (EsClause.matchQ "allText" q (some "or")) =
      (esTokens q).any (fun w => (esTokens (doc.text "allText")).contains w)) ∧
    (∀ doc : EsDoc, satisfiesClause doc (EsClause.matchPhrase "allText" q) =
      decide (List.IsInfix (esTokens q) (esTokens (doc.text "allText")))) :=
  ⟨rfl, rfl, rfl, fun doc => rfl, fun doc => rfl⟩

/-- Witness for C2 at the concrete query "abc". -/
theorem mode_primary_clause_witness :
    (("abc" : String) ≠ "") ∧
    (buildEsQuery "abc" Mode.free =
      { must := [EsClause.matchQ "namePrimary" "abc" none],
        filter := [EsClause.termB "isDeleted" false] } ∧
    buildEsQuery "abc" Mode.any =
      { must := [EsClause.matchQ "allText" "abc" (some "or")],
        filter := [EsClause.termB "isDeleted" false] } ∧
    buildEsQuery "abc" Mode.phrase =
      { must := [EsClause.matchPhrase "allText" "abc"],
        filter := [EsClause.termB "isDeleted" false] } ∧
    (∀ doc : EsDoc, satisfiesClause doc (EsClause.matchQ "allText" "abc" (some "or")) =
      (esTokens "abc").any (fun w => (esTokens (doc.text "allText")).contains w)) ∧
    (∀ doc : EsDoc, satisfiesClause doc (EsClause.matchPhrase "allText" "abc") =
      decide (List.IsInfix (esTokens "abc") (esTokens (doc.text "allText"))))) :=
  ⟨by decide, mode_primary_clause "abc" (by decide)⟩

/-- C7 counterexample: the mode string " any " lies outside
{free, any, phrase}, yet the search does NOT behave like mode `free` — the
handler trims the mode parameter first, so " any " dispatches to mode `any`
and a different query is issued. -/
theorem unknown_mode_free_counterexample :
    ((" any " : String) ∉ (["free", "any", "phrase"] : List String)) ∧
    searchHandler (some "hello") (some " any ") (fun _ => ([] : List Unit)) ≠
      searchHandler (some "hello") (some "free") (fun _ => ([] : List Unit)) := by
  exact ⟨by decide, by decide⟩

/-- C7 (amended): for every non-empty query string and every mode string
whose TRIMMED value is outside {free, any, phrase} (e.g. "fuzzy"), the search
behaves identically to mode `free`: the same query is issued to the backend
and the same results are returned. -/
theorem unknown_mode_falls_back_to_free {α : Type} (q modeRaw : String)
    (backend : EsQuery → List α)
    (hq : jsTrim q ≠ "")
    (hm : (["free", "any", "phrase"] : List String).contains (jsTrim modeRaw) = false) :
    searchHandler (some q) (some modeRaw) backend =
      searchHandler (some q) (some "free") backend := by
  have h1 : parseMode (jsTrim modeRaw) = Mode.free := by
    unfold parseMode
    rw [hm]
    exact rfl
  have h2 : parseMode (jsTrim "free") = Mode.free := by decide
  simp only [searchHandler, Option.getD_some, h1, h2]

/-- Witness for C7's amended theorem at query "hello" and mode "fuzzy". -/
theorem unknown_mode_falls_back_to_free_witness :
    (jsTrim "hello" ≠ "") ∧
    ((["free", "any", "phrase"] : List String).contains (jsTrim "fuzzy") = false) ∧
    searchHandler (some "hello") (some "fuzzy") (fun _ => ([] : List Unit)) =
      searchHandler (some "hello") (some "free") (fun _ => ([] : List Unit)) :=
  ⟨by decide, by decide,
   unknown_mode_falls_back_to_free "hello" "fuzzy" (fun _ => ([] : List Unit))
     (by decide) (by decide)⟩

/-- C8: for every query parameter that is missing, empty, or whitespace-only
(after trimming), and any mode parameter, the search returns an empty result
list and no query is sent to the backend (first component `none`). -/
theorem empty_query_no_backend_call {α : Type} (qParam modeParam : Option String)
    (backend : EsQuery → List α)
    (hq : jsTrim (qParam.getD "") = "") :
    searchHandler qParam modeParam backend = (none, ([] : List α)) := by
  simp [searchHandler, hq]

/-- Witness for C8 at a whitespace-only query string. -/
theorem empty_query_no_backend_call_witness :
    (jsTrim ((some "   " : Option String).getD "") = "") ∧
    searchHandler (some "   ") (some "phrase") (fun _ => ([] : List Unit)) =
      (none, ([] : List Unit)) :=
  ⟨by decide,
   empty_query_no_backend_call (some "   ") (some "phrase")
     (fun _ => ([] : List Unit)) (by decide)⟩

/-- C9: for every delete request whose id is missing or trims to the empty
string, the handler answers with the client-fault rejection (HTTP 400) and
never reaches the backend update — the outcome is `badRequest`, not
`updated`, for any id. -/
theorem missing_delete_id_rejected (idParam : Option String)
    (h : jsTrim (idParam.getD "") = "") :
    deleteHandler idParam = DeleteOutcome.badRequest ∧
    ∀ s : String, deleteHandler idParam ≠ DeleteOutcome.updated s := by
  have hd : deleteHandler idParam = DeleteOutcome.badRequest := by
    simp [deleteHandler, h]
  exact ⟨hd, fun s hs => by rw [hd] at hs; exact DeleteOutcome.noConfusion hs⟩

/-- Witness for C9 at a missing id parameter. -/
theorem missing_delete_id_rejected_witness :
    (jsTrim ((none : Option String).getD "") = "") ∧
    (deleteHandler none = DeleteOutcome.badRequest ∧
     ∀ s : String, deleteHandler none ≠ DeleteOutcome.updated s) :=
  ⟨by decide, missing_delete_id_rejected none (by decide)⟩

end Streets
